import Mathlib

/-!
Verification of the `jg.cluck` multi-track audio recorder
(`src/jg/cluck/__main__.py`) against its natural-language specification.

Strings are modelled as `List Char`; Python text processing (`str.splitlines`,
`str.lower`, `str.strip`, `in`-substring tests, and the regular expression
`\[(\d+)\]\s+(.+)$` used with `re.search`) is embedded as executable Lean
functions over character lists.  The process-facing parts of the program
(`main`, the signal-handling stop event, and `_record_thread`'s shutdown
escalation) are embedded as explicit trace / state-machine models whose
inputs describe the behaviour of the external environment (ffmpeg presence,
enumeration output, subprocess responsiveness).
-/

set_option maxHeartbeats 1000000

namespace Cluck

/-- Characters treated as whitespace, covering Python's `str.strip` /
regex `\s` whitespace set (ASCII whitespace plus the common Unicode
line/paragraph separators that can occur in text). -/
def isSpaceChar (c : Char) : Bool :=
  c = ' ' || c = '\t' || c = '\n' || c = '\x0b' || c = '\x0c' || c = '\r' ||
  c = '\x1c' || c = '\x1d' || c = '\x1e' || c = '\x85' || c = '\xa0' ||
  c = '\u2028' || c = '\u2029'

/-- ASCII decimal digit, the `\d` class of the device-line regex. -/
def isDigitChar (c : Char) : Bool :=
  '0' ≤ c && c ≤ '9'

/-- Line-terminator characters recognised by Python's `str.splitlines`. -/
def isLineBreakChar (c : Char) : Bool :=
  c = '\n' || c = '\r' || c = '\x0b' || c = '\x0c' ||
  c = '\x1c' || c = '\x1d' || c = '\x1e' || c = '\x85' ||
  c = '\u2028' || c = '\u2029'

/-- Worker for `splitLines`: `acc` holds the current (reversed) line.
A `"\r\n"` pair counts as a single terminator, as in `str.splitlines`. -/
def splitLinesAux : List Char → List Char → List (List Char)
  | [], acc => if acc.isEmpty then [] else [acc.reverse]
  | '\r' :: '\n' :: cs, acc => acc.reverse :: splitLinesAux cs []
  | '\r' :: cs, acc => acc.reverse :: splitLinesAux cs []
  | c :: cs, acc =>
    if isLineBreakChar c then acc.reverse :: splitLinesAux cs []
    else splitLinesAux cs (c :: acc)

/-- Python's `str.splitlines`: split on line terminators, no trailing empty
line after a final terminator. -/
def splitLines (cs : List Char) : List (List Char) :=
  splitLinesAux cs []

/-- Value of an ASCII digit character. -/
def digitVal (c : Char) : Nat :=
  c.toNat - '0'.toNat

/-- Python's `int` on a (nonempty) string of decimal digits. -/
def digitsToNat (ds : List Char) : Nat :=
  ds.foldl (fun acc c => acc * 10 + digitVal c) 0

/-- Python's `str.strip`: drop leading and trailing whitespace. -/
def trimLC (cs : List Char) : List Char :=
  ((cs.dropWhile isSpaceChar).reverse.dropWhile isSpaceChar).reverse

/-- `isPrefixLC needle hay` is true when `needle` is a prefix of `hay`. -/
def isPrefixLC : List Char → List Char → Bool
  | [], _ => true
  | _ :: _, [] => false
  | a :: as, b :: bs => a = b && isPrefixLC as bs

/-- Python's substring test `needle in hay` on strings. -/
def containsLC (hay needle : List Char) : Bool :=
  match hay with
  | [] => isPrefixLC needle []
  | h :: t => isPrefixLC needle (h :: t) || containsLC t needle

/-- Python's `str.lower` (ASCII case folding, as `Char.toLower`). -/
def lowerLC (cs : List Char) : List Char :=
  cs.map Char.toLower

/-- Attempt to match the regex `\[(\d+)\]\s+(.+)$` anchored at the start of
`cs` (one candidate start position of `re.search`): an opening bracket, a
maximal nonempty digit run, a closing bracket, at least one whitespace
character, then a nonempty remainder reaching the end of the line.  The
greedy `\s+` backs off by one character when it would otherwise consume the
whole remainder (leaving `(.+)` nothing to match).  On success, returns the
match's stripped group 2 (the device name) and group 1 as a number (the
device index), exactly as `parse_avfoundation_device_list` extracts them. -/
def matchAt (cs : List Char) : Option (List Char × Nat) :=
  match cs with
  | [] => none
  | c :: rest =>
    if c = '[' then
      let ds := rest.takeWhile isDigitChar
      if ds.isEmpty then none
      else
        match rest.dropWhile isDigitChar with
        | ']' :: suffix =>
          let k0 := (suffix.takeWhile isSpaceChar).length
          if k0 = 0 then none
          else
            let k := if k0 = suffix.length then k0 - 1 else k0
            if k = 0 then none
            else some (trimLC (suffix.drop k), digitsToNat ds)
        | _ => none
    else none

/-- `re.search` of the device-line regex over a line: try each start
position from the left and return the first (leftmost) match. -/
def searchLine : List Char → Option (List Char × Nat)
  | [] => none
  | c :: cs =>
    match matchAt (c :: cs) with
    | some r => some r
    | none => searchLine cs

/-- The audio-section header test of the parser:
`"AVFoundation audio devices:" in line or "Audio devices" in line`. -/
def isHeaderLine (line : List Char) : Bool :=
  containsLC line ("AVFoundation audio devices:".data) ||
  containsLC line ("Audio devices".data)

/-- The line loop of `parse_avfoundation_device_list`: `sec` is the
`audio_section` flag; header lines set it and are themselves skipped
(`continue`); once in the section each line contributes its regex match,
if any, in encounter order. -/
def parseLinesGo : List (List Char) → Bool → List (List Char × Nat)
  | [], _ => []
  | l :: ls, sec =>
    if isHeaderLine l then parseLinesGo ls true
    else if sec then
      match searchLine l with
      | some entry => entry :: parseLinesGo ls sec
      | none => parseLinesGo ls sec
    else parseLinesGo ls sec

/-- `parse_avfoundation_device_list`: parse ffmpeg's device-list stderr text
into `(device_name, index)` pairs in the order they appear. -/
def parse_avfoundation_device_list (output : List Char) : List (List Char × Nat) :=
  if output.isEmpty then []
  else parseLinesGo (splitLines output) false

/-- Spec-shaped description of the parser ("scan line by line; only lines
following a recognized section header are considered; matching lines
contribute an entry in order; other lines are ignored"): drop everything up
to and including the first header line, then collect the regex matches of
the remaining non-header lines. -/
def parseDevicesSpec (output : List Char) : List (List Char × Nat) :=
  (((splitLines output).dropWhile (fun l => !isHeaderLine l)).drop 1).filterMap
    (fun l => if isHeaderLine l then none else searchLine l)

/-- The matcher of `find_device_index_by_name`: is the (pre-lowered)
pattern a substring of the lowered device name? -/
def deviceMatches (pat name : List Char) : Bool :=
  containsLC (lowerLC name) (lowerLC pat)

/-- Loop of `find_device_index_by_name` with the needle already lowered. -/
def findDeviceAux (needle : List Char) : List (List Char × Nat) → Option Nat
  | [] => none
  | (name, index) :: rest =>
    if containsLC (lowerLC name) needle then some index
    else findDeviceAux needle rest

/-- `find_device_index_by_name`: index of the first device (in catalog
order) whose name contains the pattern case-insensitively, else `none`. -/
def find_device_index_by_name (device_name_to_find : List Char)
    (devices : List (List Char × Nat)) : Option Nat :=
  findDeviceAux (lowerLC device_name_to_find) devices

/-- `run_ffmpeg_list_devices`, abstracted over the external command's
diagnostic-channel output (`completed.stderr`, `none` when the channel
yielded no text at all).  The code returns `completed.stderr or ""` when it
is truthy (nonempty) and otherwise raises
`RuntimeError("ffmpeg did not produce any output ...")`. -/
def run_ffmpeg_list_devices (stderrText : Option (List Char)) :
    Except (List Char) (List Char) :=
  let output := stderrText.getD []
  if !output.isEmpty then Except.ok output
  else Except.error
    ("ffmpeg did not produce any output when listing avfoundation devices".data)

/-- `BT_HEADPHONES_NAMES` from the source. -/
def BT_HEADPHONES_NAMES : List (List Char) :=
  ["Jabra Elite Active".data]

/-- `DEVICES_MAPPING` from the source: `(name pattern, label, extra ffmpeg
arguments)` per track spec. -/
def DEVICES_MAPPING : List (List Char × List Char × List (List Char)) :=
  [("Jabra Recording".data, "mic-jabra".data, []),
   ("BlackHole".data, "blackhole".data, []),
   ("MacBook".data, "mic-macbook".data,
    ["-use_wallclock_as_timestamps".data, "1".data])]

/-! ### Shutdown escalation ladder of `_record_thread`

After the monitor loop ends, `_record_thread` runs (only when the stop
event is set and the process is still alive): send `"q"` to stdin and
`wait(timeout=5)`; on any exception, `SIGINT` and `wait(timeout=5)`; on any
exception, `terminate()` and `wait(timeout=2)`; on any exception, `kill()`.
A subprocess's behaviour is abstracted by whether each step's request can
be delivered and, if so, how long after that step the process would exit. -/

/-- The four rungs of the shutdown ladder, in source order. -/
inductive LadderStep where
  | quit
  | sigint
  | term
  | kill
deriving DecidableEq, Repr

/-- Rung of the ladder at position `i` (the canonical order). -/
def orderStep : Nat → LadderStep
  | 0 => LadderStep.quit
  | 1 => LadderStep.sigint
  | 2 => LadderStep.term
  | _ => LadderStep.kill

/-- Abstract behaviour of one capture subprocess during shutdown: for each
escalation request, whether delivering it succeeds (e.g. the stdin write
can raise), and the delay until the process exits once that request is
delivered (`none` = it never exits in response). -/
structure ProcBehavior where
  quitSendOk : Bool
  quitExit : Option Nat
  sigintSendOk : Bool
  sigintExit : Option Nat
  termSendOk : Bool
  termExit : Option Nat
deriving DecidableEq, Repr

/-- One ladder rung below `kill`: deliver the request (an exception while
sending costs no time and fails the step), then `proc.wait(timeout)`.
`Except.ok t` = exit confirmed after `t ≤ timeout`; `Except.error e` = the
step failed to confirm exit after consuming `e` time units. -/
def ladderStepRun (sendOk : Bool) (timeout : Nat) (exitAfter : Option Nat) :
    Except Nat Nat :=
  if !sendOk then Except.error 0
  else
    match exitAfter with
    | some t => if t ≤ timeout then Except.ok t else Except.error timeout
    | none => Except.error timeout

/-- The outcome of each rung for a given subprocess behaviour
(`kill` always succeeds at the OS level, immediately). -/
def stepRun (b : ProcBehavior) : LadderStep → Except Nat Nat
  | LadderStep.quit => ladderStepRun b.quitSendOk 5 b.quitExit
  | LadderStep.sigint => ladderStepRun b.sigintSendOk 5 b.sigintExit
  | LadderStep.term => ladderStepRun b.termSendOk 2 b.termExit
  | LadderStep.kill => Except.ok 0

/-- The nested `try/except` escalation of `_record_thread`, as the list of
rungs actually taken together with the total time consumed.  A later rung
runs only when the previous one failed to confirm exit. -/
def shutdownLadder (b : ProcBehavior) : List LadderStep × Nat :=
  match ladderStepRun b.quitSendOk 5 b.quitExit with
  | Except.ok t => ([LadderStep.quit], t)
  | Except.error e1 =>
    match ladderStepRun b.sigintSendOk 5 b.sigintExit with
    | Except.ok t => ([LadderStep.quit, LadderStep.sigint], e1 + t)
    | Except.error e2 =>
      match ladderStepRun b.termSendOk 2 b.termExit with
      | Except.ok t =>
        ([LadderStep.quit, LadderStep.sigint, LadderStep.term], e1 + e2 + t)
      | Except.error e3 =>
        ([LadderStep.quit, LadderStep.sigint, LadderStep.term, LadderStep.kill],
         e1 + e2 + e3)

/-- The guard at line 112 of the source: the escalation runs only when the
stop event is set and `proc.poll()` still reports the process alive. -/
def recordThreadShutdown (stopSet alive : Bool) (b : ProcBehavior) :
    Option (List LadderStep × Nat) :=
  if stopSet && alive then some (shutdownLadder b) else none

/-! ### The shared stop event

`main` creates one `threading.Event`; the SIGINT handler and the
`KeyboardInterrupt` handler call `set()`, every other touch point only
reads `is_set()`.  The flag state is a `Bool`; each operation of the run is
a transition on it. -/

/-- Every operation of the run that touches the stop event. -/
inductive StopOp where
  | sigintHandler
  | keyboardInterrupt
  | recordThreadPoll
  | mainWaitPoll
  | joinThreads
deriving DecidableEq, Repr

/-- Effect of one operation on the stop flag: the two handlers `set()` it,
everything else leaves it unchanged (`is_set()` reads, `join` ignores it). -/
def applyStopOp : StopOp → Bool → Bool
  | StopOp.sigintHandler, _ => true
  | StopOp.keyboardInterrupt, _ => true
  | StopOp.recordThreadPoll, b => b
  | StopOp.mainWaitPoll, b => b
  | StopOp.joinThreads, b => b

/-- Flag state after a sequence of operations of the run. -/
def applyStopOps (ops : List StopOp) (b : Bool) : Bool :=
  ops.foldl (fun s op => applyStopOp op s) b

/-! ### Trace model of `main` -/

/-- Observable effects of `main`, in program order. -/
inductive MainEvent where
  | checkTool
  | setSignalHandler
  | enumerateDevices
  | logDevices
  | mkdirOutput
  | startTrack (label : List Char)
  | skipTrack (name : List Char)
  | reportNothingToRecord
  | enterWaitLoop
  | joinAll
deriving DecidableEq, Repr

/-- How `main` ends: `sys.exit(code)`, an uncaught exception (the Python
interpreter then exits nonzero printing the message), or a normal return
(process exit code 0). -/
inductive MainOutcome where
  | exited (code : Nat)
  | raised (msg : List Char)
  | completed
deriving DecidableEq, Repr

/-- Process exit code resulting from a `MainOutcome` (an uncaught
exception makes the interpreter exit with code 1). -/
def outcomeExitCode : MainOutcome → Nat
  | MainOutcome.exited code => code
  | MainOutcome.raised _ => 1
  | MainOutcome.completed => 0

/-- The environment `main` runs in: whether `shutil.which` finds ffmpeg,
and the stderr text of the device-enumeration command. -/
structure MainEnv where
  ffmpegFound : Bool
  listStderr : Option (List Char)
deriving DecidableEq, Repr

/-- Per-spec resolution step of `main`'s track loop: a resolved spec
starts a recording (creating that track's output file), an unresolved one
logs a skip. -/
def trackEvent (devices : List (List Char × Nat))
    (spec : List Char × List Char × List (List Char)) : MainEvent :=
  match find_device_index_by_name spec.1 devices with
  | some _ => MainEvent.startTrack spec.2.1
  | none => MainEvent.skipTrack spec.1

/-- The labels of the tracks `main` starts (each with its `Thread` and
output path appended to `threads` / `paths`). -/
def startedTracks (devices : List (List Char × Nat)) :
    List (List Char × Nat) :=
  DEVICES_MAPPING.filterMap (fun spec =>
    (find_device_index_by_name spec.1 devices).map (fun i => (spec.2.1, i)))

/-- Trace model of `main`: the sequence of observable effects and the
outcome, for a given environment.  Mirrors the source order: tool check
(exit 1 if absent), stop event + SIGINT handler, device enumeration
(uncaught `RuntimeError` if it yields nothing), device log, the
Bluetooth-headphones guard (uncaught `RuntimeError` if such a device is
present), output-directory creation, the per-spec start/skip loop, then
either the "nothing to record" report and return, or the wait loop and the
final joins. -/
def mainModel (env : MainEnv) : List MainEvent × MainOutcome :=
  if !env.ffmpegFound then ([MainEvent.checkTool], MainOutcome.exited 1)
  else
    match run_ffmpeg_list_devices env.listStderr with
    | Except.error msg =>
      ([MainEvent.checkTool, MainEvent.setSignalHandler,
        MainEvent.enumerateDevices], MainOutcome.raised msg)
    | Except.ok raw =>
      let devices := parse_avfoundation_device_list raw
      match BT_HEADPHONES_NAMES.find?
          (fun n => (find_device_index_by_name n devices).isSome) with
      | some n =>
        ([MainEvent.checkTool, MainEvent.setSignalHandler,
          MainEvent.enumerateDevices, MainEvent.logDevices],
         MainOutcome.raised ("Start recording BEFORE connecting ".data ++ n))
      | none =>
        let pre := [MainEvent.checkTool, MainEvent.setSignalHandler,
          MainEvent.enumerateDevices, MainEvent.logDevices,
          MainEvent.mkdirOutput]
        let loopEvents := DEVICES_MAPPING.map (trackEvent devices)
        if (startedTracks devices).isEmpty then
          (pre ++ loopEvents ++ [MainEvent.reportNothingToRecord],
           MainOutcome.completed)
        else
          (pre ++ loopEvents ++ [MainEvent.enterWaitLoop, MainEvent.joinAll],
           MainOutcome.completed)

/-- Does a ladder rung confirm the process's exit for behaviour `b`? -/
def stepConfirms (b : ProcBehavior) (s : LadderStep) : Bool :=
  match stepRun b s with
  | Except.ok _ => true
  | Except.error _ => false

/-! ## Helper lemmas -/

theorem isPrefixLC_iff (needle hay : List Char) :
    isPrefixLC needle hay = true ↔ ∃ post, hay = needle ++ post := by
  induction needle generalizing hay with
  | nil => simp [isPrefixLC]
  | cons a as ih =>
    cases hay with
    | nil => simp [isPrefixLC]
    | cons b bs =>
      simp only [isPrefixLC, Bool.and_eq_true, decide_eq_true_eq, ih,
        List.cons_append, List.cons.injEq]
      constructor
      · rintro ⟨rfl, post, rfl⟩
        exact ⟨post, rfl, rfl⟩
      · rintro ⟨post, rfl, rfl⟩
        exact ⟨rfl, post, rfl⟩

theorem containsLC_iff (hay needle : List Char) :
    containsLC hay needle = true ↔ ∃ pre post, hay = pre ++ needle ++ post := by
  induction hay with
  | nil =>
    simp only [containsLC, isPrefixLC_iff]
    constructor
    · rintro ⟨post, hp⟩
      exact ⟨[], post, by simpa using hp⟩
    · rintro ⟨pre, post, hp⟩
      rw [eq_comm, List.append_assoc, List.append_eq_nil] at hp
      rw [List.append_eq_nil] at hp
      exact ⟨[], by simp [hp.2.1]⟩
  | cons h t ih =>
    simp only [containsLC, Bool.or_eq_true, isPrefixLC_iff, ih]
    constructor
    · rintro (⟨post, hp⟩ | ⟨pre, post, rfl⟩)
      · exact ⟨[], post, by simpa using hp⟩
      · exact ⟨h :: pre, post, rfl⟩
    · rintro ⟨pre, post, hp⟩
      cases pre with
      | nil => exact Or.inl ⟨post, by simpa using hp⟩
      | cons x pre2 =>
        right
        simp only [List.cons_append, List.cons.injEq] at hp
        exact ⟨pre2, post, hp.2⟩

theorem parseLinesGo_true (ls : List (List Char)) :
    parseLinesGo ls true =
      ls.filterMap (fun l => if isHeaderLine l then none else searchLine l) := by
  induction ls with
  | nil => rfl
  | cons l ls ih =>
    by_cases h : isHeaderLine l = true
    · simp [parseLinesGo, h, ih]
    · simp only [Bool.not_eq_true] at h
      cases hs : searchLine l <;>
        simp [parseLinesGo, h, hs, ih, List.filterMap_cons]

theorem parseLinesGo_false (ls : List (List Char)) :
    parseLinesGo ls false =
      ((ls.dropWhile (fun l => !isHeaderLine l)).drop 1).filterMap
        (fun l => if isHeaderLine l then none else searchLine l) := by
  induction ls with
  | nil => rfl
  | cons l ls ih =>
    by_cases h : isHeaderLine l = true
    · simp [parseLinesGo, h, parseLinesGo_true, List.dropWhile_cons]
    · simp only [Bool.not_eq_true] at h
      simp [parseLinesGo, h, ih, List.dropWhile_cons]

theorem parse_eq_parseDevicesSpec (output : List Char) :
    parse_avfoundation_device_list output = parseDevicesSpec output := by
  unfold parse_avfoundation_device_list parseDevicesSpec
  cases output with
  | nil => simp [splitLines, splitLinesAux]
  | cons c cs => simp [parseLinesGo_false]

theorem findDeviceAux_some_iff (needle : List Char)
    (devices : List (List Char × Nat)) (i : Nat) :
    findDeviceAux needle devices = some i ↔
      ∃ pre name post, devices = pre ++ ((name, i) :: post) ∧
        containsLC (lowerLC name) needle = true ∧
        ∀ q ∈ pre, containsLC (lowerLC q.1) needle = false := by
  induction devices with
  | nil =>
    simp only [findDeviceAux]
    constructor
    · intro h
      exact absurd h (by simp)
    · rintro ⟨pre, name, post, hdec, -, -⟩
      exact absurd hdec.symm (by simp)
  | cons d rest ih =>
    obtain ⟨n, j⟩ := d
    by_cases hm : containsLC (lowerLC n) needle = true
    · simp only [findDeviceAux, hm, if_true, Option.some.injEq]
      constructor
      · rintro rfl
        exact ⟨[], n, rest, rfl, hm, by simp⟩
      · rintro ⟨pre, name, post, hdec, hmatch, hpre⟩
        cases pre with
        | nil =>
          simp only [List.nil_append, List.cons.injEq, Prod.mk.injEq] at hdec
          exact hdec.1.2
        | cons q pre2 =>
          exfalso
          simp only [List.cons_append, List.cons.injEq] at hdec
          have hq := hpre q (by simp)
          rw [← hdec.1] at hq
          simp [hm] at hq
    · have hm2 : containsLC (lowerLC n) needle = false := by
        simpa using hm
      simp only [findDeviceAux, hm2, if_false, Bool.false_eq_true, ih]
      constructor
      · rintro ⟨pre, name, post, rfl, hmatch, hpre⟩
        refine ⟨(n, j) :: pre, name, post, rfl, hmatch, ?_⟩
        rintro q hq
        rcases List.mem_cons.mp hq with rfl | hq2
        · exact hm2
        · exact hpre q hq2
      · rintro ⟨pre, name, post, hdec, hmatch, hpre⟩
        cases pre with
        | nil =>
          exfalso
          simp only [List.nil_append, List.cons.injEq, Prod.mk.injEq] at hdec
          rw [← hdec.1.1] at hmatch
          simp [hmatch] at hm2
        | cons q pre2 =>
          simp only [List.cons_append, List.cons.injEq] at hdec
          exact ⟨pre2, name, post, hdec.2, hmatch,
            fun q2 hq2 => hpre q2 (List.mem_cons_of_mem q hq2)⟩

theorem findDeviceAux_none_iff (needle : List Char)
    (devices : List (List Char × Nat)) :
    findDeviceAux needle devices = none ↔
      ∀ q ∈ devices, containsLC (lowerLC q.1) needle = false := by
  induction devices with
  | nil => simp [findDeviceAux]
  | cons d rest ih =>
    obtain ⟨n, j⟩ := d
    by_cases hm : containsLC (lowerLC n) needle = true
    · simp [findDeviceAux, hm]
    · have hm2 : containsLC (lowerLC n) needle = false := by simpa using hm
      simp only [findDeviceAux, hm2, if_false, Bool.false_eq_true, ih,
        List.mem_cons]
      constructor
      · rintro h q (rfl | hq)
        · exact hm2
        · exact h q hq
      · intro h q hq
        exact h q (Or.inr hq)

/-! ## Claim theorems -/

/-- C2: for every catalog and pattern, `find_device_index_by_name` returns
the index of the first-enumerated entry whose name contains the pattern as
a case-insensitive substring (all earlier entries fail the test), and
returns `none` — not an error — exactly when no entry's name contains the
pattern; containing the pattern case-insensitively means the lowered
pattern occurs contiguously inside the lowered name. -/
theorem resolve_first_case_insensitive_match (pat : List Char)
    (devices : List (List Char × Nat)) :
    (∀ i, find_device_index_by_name pat devices = some i ↔
      ∃ pre name post, devices = pre ++ ((name, i) :: post) ∧
        deviceMatches pat name = true ∧
        ∀ q ∈ pre, deviceMatches pat q.1 = false) ∧
    (find_device_index_by_name pat devices = none ↔
      ∀ q ∈ devices, deviceMatches pat q.1 = false) ∧
    (∀ name : List Char, deviceMatches pat name = true ↔
      ∃ pre post, lowerLC name = pre ++ lowerLC pat ++ post) := by
  refine ⟨fun i => ?_, ?_, fun name => ?_⟩
  · simpa [find_device_index_by_name, deviceMatches] using
      findDeviceAux_some_iff (lowerLC pat) devices i
  · simpa [find_device_index_by_name, deviceMatches] using
      findDeviceAux_none_iff (lowerLC pat) devices
  · simpa [deviceMatches] using containsLC_iff (lowerLC name) (lowerLC pat)

/-- C3: the parser scans line by line, considers only lines that come after
a recognized audio-section header substring (header-carrying lines are
themselves skipped), collects one `(name, index)` entry per line matching
the `[<integer>] <name>` pattern in encounter order, ignores every other
line, and yields zero entries without error when no header is present or
the input is empty. -/
theorem parse_section_line_scan (output : List Char) :
    parse_avfoundation_device_list output = parseDevicesSpec output ∧
    ((∀ l ∈ splitLines output, isHeaderLine l = false) →
      parse_avfoundation_device_list output = []) ∧
    parse_avfoundation_device_list [] = [] := by
  refine ⟨parse_eq_parseDevicesSpec output, ?_, rfl⟩
  intro h
  rw [parse_eq_parseDevicesSpec]
  unfold parseDevicesSpec
  have hnil : (splitLines output).dropWhile (fun l => !isHeaderLine l) = [] := by
    rw [List.dropWhile_eq_nil_iff]
    intro l hl
    simp [h l hl]
  rw [hnil]
  rfl

/-- Witness for C3 at a concrete header-free input. -/
theorem parse_section_line_scan_witness :
    parse_avfoundation_device_list ("[0] no header here".data) = [] :=
  (parse_section_line_scan ("[0] no header here".data)).2.1 (by decide)

/-- C8: the parser is deterministic (and hence idempotent over repeated
runs): two applications to the same text yield identical entry sequences —
it is a pure function of its input. -/
theorem parse_two_runs_equal (t1 t2 : List Char) (h : t1 = t2) :
    parse_avfoundation_device_list t1 = parse_avfoundation_device_list t2 :=
  congrArg parse_avfoundation_device_list h

/-- Witness for C8 at a concrete enumeration text. -/
theorem parse_two_runs_equal_witness :
    parse_avfoundation_device_list
        ("AVFoundation audio devices:\n[0] Mic".data) =
      parse_avfoundation_device_list
        ("AVFoundation audio devices:\n[0] Mic".data) :=
  parse_two_runs_equal _ _ rfl

/-- C6: `run_ffmpeg_list_devices` returns the enumeration command's
diagnostic-channel text whenever that text is non-empty, and raises its
`RuntimeError` exactly when the command produced no usable output (empty
or absent stderr). -/
theorem enumerate_returns_stderr_or_raises (s : Option (List Char)) :
    ((s.getD []).isEmpty = false →
      run_ffmpeg_list_devices s = Except.ok (s.getD [])) ∧
    ((∃ msg, run_ffmpeg_list_devices s = Except.error msg) ↔
      (s.getD []).isEmpty = true) := by
  cases h : (s.getD []).isEmpty <;>
    simp [run_ffmpeg_list_devices, h]

/-- Witness for C6: non-empty stderr is returned as-is. -/
theorem enumerate_returns_stderr_or_raises_witness :
    run_ffmpeg_list_devices (some ("x".data)) = Except.ok ("x".data) :=
  (enumerate_returns_stderr_or_raises (some ("x".data))).1 (by decide)

/-- C7: the stop flag is one-shot: no operation of the run ever takes it
from set back to unset (so once set it stays set through any sequence of
operations), only the two interrupt handlers set it, and delivering the OS
interrupt a second time leaves the flag exactly as after the first. -/
theorem stop_event_one_shot :
    (∀ (ops : List StopOp) (b : Bool), b = true → applyStopOps ops b = true) ∧
    (∀ (op : StopOp) (b : Bool), applyStopOp op b = false → b = false) ∧
    (∀ b : Bool,
      applyStopOp StopOp.sigintHandler (applyStopOp StopOp.sigintHandler b) =
        applyStopOp StopOp.sigintHandler b) := by
  refine ⟨?_, ?_, fun b => rfl⟩
  · intro ops
    induction ops with
    | nil => intro b hb; simpa [applyStopOps] using hb
    | cons op ops ih =>
      intro b hb
      subst hb
      have h1 : applyStopOp op true = true := by cases op <;> rfl
      simpa [applyStopOps, h1] using ih true rfl
  · intro op b h
    cases op <;> simp [applyStopOp] at h <;> exact h

/-- Witness for C7: a set flag survives a sequence of poll/join
operations and a repeated interrupt. -/
theorem stop_event_one_shot_witness :
    applyStopOps [StopOp.sigintHandler, StopOp.recordThreadPoll,
      StopOp.mainWaitPoll, StopOp.joinThreads] true = true :=
  stop_event_one_shot.1 [StopOp.sigintHandler, StopOp.recordThreadPoll,
    StopOp.mainWaitPoll, StopOp.joinThreads] true rfl

theorem ladderStepRun_ok_le {sendOk : Bool} {timeout : Nat} {ex : Option Nat}
    {t : Nat} (h : ladderStepRun sendOk timeout ex = Except.ok t) :
    t ≤ timeout := by
  cases sendOk with
  | false => simp [ladderStepRun] at h
  | true =>
    cases ex with
    | none => simp [ladderStepRun] at h
    | some t0 =>
      by_cases ht : t0 ≤ timeout
      · simp only [ladderStepRun, Bool.not_true, Bool.false_eq_true,
          if_false, if_pos ht, Except.ok.injEq] at h
        omega
      · simp [ladderStepRun, ht] at h

theorem ladderStepRun_error_le {sendOk : Bool} {timeout : Nat} {ex : Option Nat}
    {e : Nat} (h : ladderStepRun sendOk timeout ex = Except.error e) :
    e ≤ timeout := by
  cases sendOk with
  | false =>
    simp only [ladderStepRun, Bool.not_false, if_true, Except.error.injEq] at h
    omega
  | true =>
    cases ex with
    | none =>
      simp only [ladderStepRun, Bool.not_true, Bool.false_eq_true, if_false,
        Except.error.injEq] at h
      omega
    | some t0 =>
      by_cases ht : t0 ≤ timeout
      · simp [ladderStepRun, ht] at h
      · simp only [ladderStepRun, Bool.not_true, Bool.false_eq_true, if_false,
          if_neg ht, Except.error.injEq] at h
        omega

/-- C1: for a started track, once the stop signal is observed with the
subprocess still alive, the supervisor enters the shutdown escalation
ladder and takes its rungs in source order — graceful quit (wait 5), then
interrupt (wait 5), then terminate (wait 2), then unconditional kill —
where rung `i + 1` runs only if rung `i` failed to confirm exit, a rung
below `kill` ends the ladder only by confirming exit, and the total time
consumed is at most `5 + 5 + 2 = 12` time units. -/
theorem shutdown_ladder_escalation (stopSet alive : Bool) (b : ProcBehavior)
    (hstop : stopSet = true) (halive : alive = true) :
    ∃ steps elapsed,
      recordThreadShutdown stopSet alive b = some (steps, elapsed) ∧
      elapsed ≤ 12 ∧ 1 ≤ steps.length ∧ steps.length ≤ 4 ∧
      steps = (List.range steps.length).map orderStep ∧
      (∀ i, i + 1 < steps.length → stepConfirms b (orderStep i) = false) ∧
      (steps.length < 4 → stepConfirms b (orderStep (steps.length - 1)) = true) := by
  subst hstop halive
  cases hq : ladderStepRun b.quitSendOk 5 b.quitExit with
  | ok t =>
    refine ⟨[LadderStep.quit], t, ?_, ?_, by simp, by simp, rfl, ?_, ?_⟩
    · simp [recordThreadShutdown, shutdownLadder, hq]
    · have := ladderStepRun_ok_le hq
      omega
    · intro i hi
      simp at hi
    · intro _
      simp [stepConfirms, stepRun, orderStep, hq]
  | error e1 =>
    have he1 := ladderStepRun_error_le hq
    cases hs : ladderStepRun b.sigintSendOk 5 b.sigintExit with
    | ok t =>
      refine ⟨[LadderStep.quit, LadderStep.sigint], e1 + t, ?_, ?_,
        by simp, by simp, rfl, ?_, ?_⟩
      · simp [recordThreadShutdown, shutdownLadder, hq, hs]
      · have := ladderStepRun_ok_le hs
        omega
      · intro i hi
        simp only [List.length_cons, List.length_nil] at hi
        have h0 : i = 0 := by omega
        subst h0
        simp [stepConfirms, stepRun, orderStep, hq]
      · intro _
        simp [stepConfirms, stepRun, orderStep, hs]
    | error e2 =>
      have he2 := ladderStepRun_error_le hs
      cases ht : ladderStepRun b.termSendOk 2 b.termExit with
      | ok t =>
        refine ⟨[LadderStep.quit, LadderStep.sigint, LadderStep.term],
          e1 + e2 + t, ?_, ?_, by simp, by simp, rfl, ?_, ?_⟩
        · simp [recordThreadShutdown, shutdownLadder, hq, hs, ht]
        · have := ladderStepRun_ok_le ht
          omega
        · intro i hi
          simp only [List.length_cons, List.length_nil] at hi
          have h01 : i = 0 ∨ i = 1 := by omega
          rcases h01 with rfl | rfl
          · simp [stepConfirms, stepRun, orderStep, hq]
          · simp [stepConfirms, stepRun, orderStep, hs]
        · intro _
          simp [stepConfirms, stepRun, orderStep, ht]
      | error e3 =>
        have he3 := ladderStepRun_error_le ht
        refine ⟨[LadderStep.quit, LadderStep.sigint, LadderStep.term,
          LadderStep.kill], e1 + e2 + e3, ?_, by omega, by simp, by simp,
          rfl, ?_, ?_⟩
        · simp [recordThreadShutdown, shutdownLadder, hq, hs, ht]
        · intro i hi
          simp only [List.length_cons, List.length_nil] at hi
          have h012 : i = 0 ∨ i = 1 ∨ i = 2 := by omega
          rcases h012 with rfl | rfl | rfl
          · simp [stepConfirms, stepRun, orderStep, hq]
          · simp [stepConfirms, stepRun, orderStep, hs]
          · simp [stepConfirms, stepRun, orderStep, ht]
        · intro h4
          simp at h4

/-- Witness for C1: a subprocess that ignores every request still drives
the ladder through all four rungs within the 12-unit bound. -/
theorem shutdown_ladder_escalation_witness :
    ∃ steps elapsed,
      recordThreadShutdown true true
          ⟨true, none, true, none, true, none⟩ = some (steps, elapsed) ∧
      elapsed ≤ 12 ∧ 1 ≤ steps.length ∧ steps.length ≤ 4 ∧
      steps = (List.range steps.length).map orderStep ∧
      (∀ i, i + 1 < steps.length →
        stepConfirms ⟨true, none, true, none, true, none⟩ (orderStep i) = false) ∧
      (steps.length < 4 →
        stepConfirms ⟨true, none, true, none, true, none⟩
          (orderStep (steps.length - 1)) = true) :=
  shutdown_ladder_escalation true true
    ⟨true, none, true, none, true, none⟩ rfl rfl

/-- C5: when the external capture tool is absent, `main` exits immediately
with the fatal message and exit code 1, and its trace shows neither a
device enumeration nor an output-directory creation (the tool check is the
very first effect). -/
theorem tool_missing_fail_fast (env : MainEnv)
    (h : env.ffmpegFound = false) :
    mainModel env = ([MainEvent.checkTool], MainOutcome.exited 1) ∧
    outcomeExitCode (mainModel env).2 = 1 ∧
    MainEvent.enumerateDevices ∉ (mainModel env).1 ∧
    MainEvent.mkdirOutput ∉ (mainModel env).1 := by
  have hm : mainModel env = ([MainEvent.checkTool], MainOutcome.exited 1) := by
    simp [mainModel, h]
  refine ⟨hm, by rw [hm]; rfl, by rw [hm]; simp, by rw [hm]; simp⟩

/-- Witness for C5 in the environment without ffmpeg. -/
theorem tool_missing_fail_fast_witness :
    mainModel ⟨false, none⟩ =
      ([MainEvent.checkTool], MainOutcome.exited 1) ∧
    outcomeExitCode (mainModel ⟨false, none⟩).2 = 1 ∧
    MainEvent.enumerateDevices ∉ (mainModel ⟨false, none⟩).1 ∧
    MainEvent.mkdirOutput ∉ (mainModel ⟨false, none⟩).1 :=
  tool_missing_fail_fast ⟨false, none⟩ rfl

/-- C4: when no track spec resolves to a device (and the run reaches the
track loop), `main` reports "nothing to record", never enters the
stop-signal wait loop, starts no track (so no track output file is ever
created), and finishes with exit code 0. -/
theorem nothing_to_record_completes (env : MainEnv) (raw : List Char)
    (hff : env.ffmpegFound = true)
    (henum : run_ffmpeg_list_devices env.listStderr = Except.ok raw)
    (hbt : ∀ n ∈ BT_HEADPHONES_NAMES,
      find_device_index_by_name n (parse_avfoundation_device_list raw) = none)
    (hzero : ∀ spec ∈ DEVICES_MAPPING,
      find_device_index_by_name spec.1
        (parse_avfoundation_device_list raw) = none) :
    outcomeExitCode (mainModel env).2 = 0 ∧
    MainEvent.reportNothingToRecord ∈ (mainModel env).1 ∧
    MainEvent.enterWaitLoop ∉ (mainModel env).1 ∧
    ∀ label, MainEvent.startTrack label ∉ (mainModel env).1 := by
  have h1 := hzero ("Jabra Recording".data, "mic-jabra".data, [])
    (by simp [DEVICES_MAPPING])
  have h2 := hzero ("BlackHole".data, "blackhole".data, [])
    (by simp [DEVICES_MAPPING])
  have h3 := hzero ("MacBook".data, "mic-macbook".data,
    ["-use_wallclock_as_timestamps".data, "1".data])
    (by simp [DEVICES_MAPPING])
  simp only at h1 h2 h3
  have hfind : BT_HEADPHONES_NAMES.find? (fun n =>
      (find_device_index_by_name n
        (parse_avfoundation_device_list raw)).isSome) = none := by
    rw [List.find?_eq_none]
    intro n hn
    simp [hbt n hn]
  have hstart : startedTracks (parse_avfoundation_device_list raw) = [] := by
    unfold startedTracks
    rw [List.filterMap_eq_nil_iff]
    intro spec hspec
    simp [hzero spec hspec]
  have hm : mainModel env =
      ([MainEvent.checkTool, MainEvent.setSignalHandler,
        MainEvent.enumerateDevices, MainEvent.logDevices,
        MainEvent.mkdirOutput, MainEvent.skipTrack ("Jabra Recording".data),
        MainEvent.skipTrack ("BlackHole".data),
        MainEvent.skipTrack ("MacBook".data),
        MainEvent.reportNothingToRecord], MainOutcome.completed) := by
    simp [mainModel, hff, henum, hfind, hstart, DEVICES_MAPPING,
      trackEvent, h1, h2, h3]
  refine ⟨by rw [hm]; rfl, by rw [hm]; simp, by rw [hm]; simp, fun label => ?_⟩
  rw [hm]
  simp

/-- Witness for C4: a catalog with only an unmatched USB device. -/
theorem nothing_to_record_completes_witness :
    outcomeExitCode (mainModel ⟨true,
      some ("AVFoundation audio devices:\n[0] USB thing".data)⟩).2 = 0 ∧
    MainEvent.reportNothingToRecord ∈ (mainModel ⟨true,
      some ("AVFoundation audio devices:\n[0] USB thing".data)⟩).1 ∧
    MainEvent.enterWaitLoop ∉ (mainModel ⟨true,
      some ("AVFoundation audio devices:\n[0] USB thing".data)⟩).1 ∧
    ∀ label, MainEvent.startTrack label ∉ (mainModel ⟨true,
      some ("AVFoundation audio devices:\n[0] USB thing".data)⟩).1 :=
  nothing_to_record_completes
    ⟨true, some ("AVFoundation audio devices:\n[0] USB thing".data)⟩
    ("AVFoundation audio devices:\n[0] USB thing".data)
    rfl rfl (by decide) (by decide)

/-- C9: when the enumerated catalog contains a device whose name contains
"Jabra Elite Active" case-insensitively, `main` aborts with the
`RuntimeError` telling the user to start recording before connecting it,
with a nonzero exit code; its trace shows the enumeration happened but no
output directory was created and no track was started. -/
theorem bt_headphones_abort (env : MainEnv) (raw : List Char)
    (hff : env.ffmpegFound = true)
    (henum : run_ffmpeg_list_devices env.listStderr = Except.ok raw)
    (hbt : (find_device_index_by_name ("Jabra Elite Active".data)
      (parse_avfoundation_device_list raw)).isSome = true) :
    (mainModel env).2 = MainOutcome.raised
      ("Start recording BEFORE connecting ".data ++
        "Jabra Elite Active".data) ∧
    outcomeExitCode (mainModel env).2 = 1 ∧
    MainEvent.enumerateDevices ∈ (mainModel env).1 ∧
    MainEvent.mkdirOutput ∉ (mainModel env).1 ∧
    ∀ label, MainEvent.startTrack label ∉ (mainModel env).1 := by
  have hfind : BT_HEADPHONES_NAMES.find? (fun n =>
      (find_device_index_by_name n
        (parse_avfoundation_device_list raw)).isSome) =
      some ("Jabra Elite Active".data) := by
    simp [BT_HEADPHONES_NAMES, List.find?_cons, hbt]
  have hm : mainModel env =
      ([MainEvent.checkTool, MainEvent.setSignalHandler,
        MainEvent.enumerateDevices, MainEvent.logDevices],
       MainOutcome.raised ("Start recording BEFORE connecting ".data ++
        "Jabra Elite Active".data)) := by
    simp [mainModel, hff, henum, hfind]
  refine ⟨by rw [hm], by rw [hm]; rfl, by rw [hm]; simp, by rw [hm]; simp,
    fun label => ?_⟩
  rw [hm]
  simp

/-- Witness for C9: a catalog listing the Bluetooth headphones. -/
theorem bt_headphones_abort_witness :
    (mainModel ⟨true, some
      ("AVFoundation audio devices:\n[0] Jabra Elite Active 75t".data)⟩).2 =
      MainOutcome.raised ("Start recording BEFORE connecting ".data ++
        "Jabra Elite Active".data) ∧
    outcomeExitCode (mainModel ⟨true, some
      ("AVFoundation audio devices:\n[0] Jabra Elite Active 75t".data)⟩).2 = 1 ∧
    MainEvent.enumerateDevices ∈ (mainModel ⟨true, some
      ("AVFoundation audio devices:\n[0] Jabra Elite Active 75t".data)⟩).1 ∧
    MainEvent.mkdirOutput ∉ (mainModel ⟨true, some
      ("AVFoundation audio devices:\n[0] Jabra Elite Active 75t".data)⟩).1 ∧
    ∀ label, MainEvent.startTrack label ∉ (mainModel ⟨true, some
      ("AVFoundation audio devices:\n[0] Jabra Elite Active 75t".data)⟩).1 :=
  bt_headphones_abort
    ⟨true, some
      ("AVFoundation audio devices:\n[0] Jabra Elite Active 75t".data)⟩
    ("AVFoundation audio devices:\n[0] Jabra Elite Active 75t".data)
    rfl rfl (by decide)

theorem dropWhile_idem {α : Type} (p : α → Bool) (l : List α) :
    (l.dropWhile p).dropWhile p = l.dropWhile p := by
  induction l with
  | nil => rfl
  | cons a l ih =>
    by_cases h : p a = true
    · rw [List.dropWhile_cons_of_pos h, ih]
    · rw [List.dropWhile_cons_of_neg h, List.dropWhile_cons_of_neg h]

theorem dropWhile_head_false {α : Type} {p : α → Bool} {l t : List α} {a : α}
    (h : l.dropWhile p = a :: t) : p a = false := by
  induction l with
  | nil => simp [List.dropWhile] at h
  | cons x xs ih =>
    by_cases hx : p x = true
    · rw [List.dropWhile_cons_of_pos hx] at h
      exact ih h
    · rw [List.dropWhile_cons_of_neg hx] at h
      injection h with h1 h2
      subst h1
      simpa using hx

theorem dropWhile_append_getLast {α : Type} {p : α → Bool} {a : α}
    (xs : List α) (ha : p a = false) :
    ∃ ys, (xs ++ [a]).dropWhile p = ys ++ [a] := by
  induction xs with
  | nil =>
    exact ⟨[], by simp [List.dropWhile_cons, ha]⟩
  | cons x xs ih =>
    by_cases hx : p x = true
    · obtain ⟨ys, hys⟩ := ih
      exact ⟨ys, by rw [List.cons_append, List.dropWhile_cons_of_pos hx, hys]⟩
    · exact ⟨x :: xs, by rw [List.cons_append, List.dropWhile_cons_of_neg hx]⟩

theorem trimLC_idem (l : List Char) : trimLC (trimLC l) = trimLC l := by
  have hfix : (trimLC l).dropWhile isSpaceChar = trimLC l := by
    cases hA : l.dropWhile isSpaceChar with
    | nil => simp [trimLC, hA]
    | cons a t =>
      have hpa : isSpaceChar a = false := dropWhile_head_false hA
      obtain ⟨ys, hys⟩ := dropWhile_append_getLast (p := isSpaceChar)
        t.reverse hpa
      have htl : trimLC l = a :: ys.reverse := by
        rw [trimLC, hA, List.reverse_cons, hys]
        simp
      rw [htl, List.dropWhile_cons_of_neg (by simp [hpa])]
  have hrev : (trimLC l).reverse =
      (l.dropWhile isSpaceChar).reverse.dropWhile isSpaceChar := by
    rw [trimLC, List.reverse_reverse]
  conv_lhs => rw [trimLC]
  rw [hfix, hrev, dropWhile_idem]
  rfl

theorem matchAt_cons_ne {c : Char} {l : List Char} (h : c ≠ '[') :
    matchAt (c :: l) = none := by
  simp [matchAt, h]

theorem matchAt_some_name {cs name : List Char} {idx : Nat}
    (h : matchAt cs = some (name, idx)) : ∃ g, name = trimLC g := by
  simp only [matchAt] at h
  repeat' split at h
  all_goals first
    | (injection h with hh
       exact ⟨_, (congrArg Prod.fst hh).symm⟩)
    | injection h

theorem searchLine_some_name {cs name : List Char} {idx : Nat}
    (h : searchLine cs = some (name, idx)) : ∃ g, name = trimLC g := by
  induction cs with
  | nil => simp [searchLine] at h
  | cons c rest ih =>
    simp only [searchLine] at h
    cases hm : matchAt (c :: rest) with
    | some r =>
      rw [hm] at h
      simp only [Option.some.injEq] at h
      subst h
      exact matchAt_some_name hm
    | none =>
      rw [hm] at h
      exact ih h

/-- C10: within the audio section, a device line is accepted with the
`[<digits>]` pattern anywhere in the line — any bracket-free text may
precede the leftmost match without affecting the result; the digits become
the index and the stripped remainder after the whitespace becomes the name
(third conjunct, for a run of digits followed by `]`, whitespace, and a
non-whitespace-only remainder); and every name the matcher produces
carries no leading or trailing whitespace (it is a fixpoint of
stripping). -/
theorem device_line_anywhere_trimmed :
    (∀ pre cs, (∀ c ∈ pre, c ≠ '[') →
      searchLine (pre ++ cs) = searchLine cs) ∧
    (∀ cs name idx, searchLine cs = some (name, idx) → trimLC name = name) ∧
    (∀ ds suffix, ds ≠ [] → (∀ c ∈ ds, isDigitChar c = true) →
      0 < (suffix.takeWhile isSpaceChar).length →
      (suffix.takeWhile isSpaceChar).length < suffix.length →
      matchAt ('[' :: (ds ++ ']' :: suffix)) =
        some (trimLC (suffix.drop (suffix.takeWhile isSpaceChar).length),
          digitsToNat ds)) := by
  refine ⟨?_, ?_, ?_⟩
  · intro pre cs h
    induction pre with
    | nil => simp
    | cons c pre2 ih =>
      have hc : c ≠ '[' := h c (by simp)
      simp only [List.cons_append, searchLine, matchAt_cons_ne hc]
      exact ih (fun c2 hc2 => h c2 (by simp [hc2]))
  · intro cs name idx h
    obtain ⟨g, rfl⟩ := searchLine_some_name h
    exact trimLC_idem g
  · intro ds suffix hne hds h1 h2
    have htake : (ds ++ ']' :: suffix).takeWhile isDigitChar = ds := by
      rw [List.takeWhile_append_of_pos (fun a ha => hds a ha),
        List.takeWhile_cons_of_neg (by decide)]
      simp
    have hdrop : (ds ++ ']' :: suffix).dropWhile isDigitChar = ']' :: suffix := by
      rw [List.dropWhile_append_of_pos (fun a ha => hds a ha),
        List.dropWhile_cons_of_neg (by decide)]
    have hempty : ds.isEmpty = false := by
      cases ds
      · exact absurd rfl hne
      · rfl
    have h1a : (suffix.takeWhile isSpaceChar).length ≠ 0 := by omega
    have h2a : (suffix.takeWhile isSpaceChar).length ≠ suffix.length := by
      omega
    simp [matchAt, htake, hdrop, hempty, h1a, h2a]

/-- Witness for C10 at a concrete prefixed, padded device line. -/
theorem device_line_anywhere_trimmed_witness :
    matchAt ('[' :: ("12".data ++ ']' :: " hi ".data)) =
      some (trimLC (" hi ".data.drop
          ((" hi ".data.takeWhile isSpaceChar).length)),
        digitsToNat ("12".data)) :=
  device_line_anywhere_trimmed.2.2 ("12".data) (" hi ".data)
    (by decide) (by decide) (by decide) (by decide)

end Cluck
